import Mathlib

/-!
# Verification of the Car-Scrapping-Playright repository

Shallow embedding of the deduplicator, record normalizer, job registry and
job runner of the repository, together with theorems settling the frozen
claims about its specification.

Sources embedded:
* `classic/classic.py` and `scraper_integration.py` — `normalize_price`,
  `is_duplicate`, the per-run acceptance loop, and the background runner
  functions `scrape_classic_valuer_background` / `scrape_classic_com_background`.
* `app.py` — the job dictionary (`scraping_jobs`), `start_scraping`,
  `get_job_results`, and the background wrappers
  `run_classic_valuer_background` / `run_classic_com_background`.
* `theclassicvaluer/playwright_code.py` — `parse_listing_text` price and
  gearbox extraction, `is_valid_vehicle_listing`, and the
  filter-then-deduplicate sweep of `process_vehicle_listings`.

Python exceptions are modelled explicitly: a function that can raise returns
`Except PyError _` (or pairs its state with `Option PyError`); machine
arithmetic in the sources is Python arbitrary-precision integer arithmetic,
so `Nat`/`Int` model it directly.  The `0.05` relative-tolerance comparison
`abs(a - b) / b <= 0.05` is modelled by the exact rational inequality
`100 * |a - b| ≤ 5 * b` (the prices involved are far below the scale at
which IEEE rounding of the quotient could disagree with the exact value).
-/

namespace CarScraper

/-- Python exceptions that the embedded code can raise. -/
inductive PyError
  | valueError
  | zeroDivisionError
  | keyError
deriving DecidableEq, Repr

/-! ## Price normalization and the deduplicator

From `classic/classic.py` lines 16-38 (verbatim duplicated in
`scraper_integration.py` lines 66-87):

    def normalize_price(price_str):
        return int(re.sub(r"[^\d]", "", price_str))

    def is_duplicate(new_row):
        new_price = normalize_price(new_row["Sold Price"])
        for existing in existing_entries:
            existing_price = normalize_price(existing["Sold Price"])
            if (new_row["Make"] == existing["Make"] and
                new_row["Model"] == existing["Model"] and
                new_row["Date of Sale"] == existing["Date of Sale"] and
                abs(existing_price - new_price) / new_price <= 0.05):
                return True
        return False
-/

/-- Value of a decimal digit character. -/
def digitVal (c : Char) : Nat := c.toNat - 48

/-- Numeric value of a most-significant-first digit string, as Python's
`int` computes it on a nonempty all-digit string. -/
def digitsVal (ds : List Char) : Nat := ds.foldl (fun a c => 10 * a + digitVal c) 0

/-- `re.sub(r"[^\d]", "", s)`: keep only the (ASCII) decimal digits. -/
def stripNonDigits (s : String) : List Char := s.data.filter Char.isDigit

/-- `normalize_price` — strips every non-digit and applies `int`.
`int("")` raises `ValueError`, hence the `Except`. -/
def normalize_price (s : String) : Except PyError Nat :=
  let ds := stripNonDigits s
  if ds.isEmpty then .error .valueError else .ok (digitsVal ds)

/-- One CSV row as the Classic.com pipeline keys it: the deduplicator
reads exactly the fields `Make`, `Model`, `Date of Sale`, `Sold Price`. -/
structure Row where
  make : String
  model : String
  dateOfSale : String
  soldPrice : String
deriving DecidableEq, Repr

/-- The tolerance test `abs(existing_price - new_price) / new_price <= 0.05`
with `new_price ≠ 0`, as the exact inequality `100·|e − n| ≤ 5·n`. -/
def within5Percent (e n : Nat) : Bool :=
  decide (100 * ((e : Int) - (n : Int)).natAbs ≤ 5 * n)

/-- The `for existing in existing_entries` loop of `is_duplicate`, with the
candidate's already-normalized price `n`.  Python evaluates the conjunction
lazily, so the division (and its possible `ZeroDivisionError`) happens only
after the three key fields matched. -/
def isDupLoop (newRow : Row) (n : Nat) : List Row → Except PyError Bool
  | [] => .ok false
  | ex :: rest =>
    match normalize_price ex.soldPrice with
    | .error e => .error e
    | .ok eprice =>
      if newRow.make = ex.make ∧ newRow.model = ex.model ∧
          newRow.dateOfSale = ex.dateOfSale then
        if n = 0 then .error .zeroDivisionError
        else if within5Percent eprice n then .ok true
        else isDupLoop newRow n rest
      else isDupLoop newRow n rest

/-- `is_duplicate(new_row)` against the captured `existing_entries`. -/
def is_duplicate (newRow : Row) (existing : List Row) : Except PyError Bool :=
  match normalize_price newRow.soldPrice with
  | .error e => .error e
  | .ok n => isDupLoop newRow n existing

/-- Python `str.lower()` (ASCII case folding suffices for the data here). -/
def pyLower (s : String) : String := ⟨s.data.map Char.toLower⟩

/-- Modelled from the spec: the duplicate criterion exactly as the spec
sentence states it — the key tuple (make, model, sale date) compared
case-insensitively, and the absolute difference of the two normalized
prices divided by the *new* candidate's normalized price at most `0.05`.
Used to compare the spec's claim against the implementation. -/
def specDuplicateCriterion (cand : Row) (history : List Row) : Prop :=
  ∃ ex ∈ history,
    pyLower ex.make = pyLower cand.make ∧
    pyLower ex.model = pyLower cand.model ∧
    pyLower ex.dateOfSale = pyLower cand.dateOfSale ∧
    ∃ e n, normalize_price ex.soldPrice = .ok e ∧
      normalize_price cand.soldPrice = .ok n ∧
      |(e : ℚ) - (n : ℚ)| / (n : ℚ) ≤ 5 / 100

/-! ## Job registry and runner

`app.py` keeps the jobs in a module-level dict `scraping_jobs`; every write
the runners perform has the shape `scraping_jobs[job_id][field] = value`,
which raises `KeyError` when `job_id` has been deleted from the dict.
The registry is modelled as an association list with distinct keys (Python
dict semantics: lookup by key, assignment replaces in place). -/

/-- The mutable job state tracked in `scraping_jobs` (the fields the claims
are about; timestamps are opaque strings). -/
structure Job where
  status : String
  message : String
  progress : Nat
  totalRecords : Nat
  results : List String
  csvFile : Option String
  completedAt : Option String
deriving DecidableEq, Repr

def setStatus (s : String) (j : Job) : Job := { j with status := s }

def setMessage (s : String) (j : Job) : Job := { j with message := s }

def setProgress (p : Nat) (j : Job) : Job := { j with progress := p }

def setTotalRecords (n : Nat) (j : Job) : Job := { j with totalRecords := n }

def setResults (rs : List String) (j : Job) : Job := { j with results := rs }

def setCsvFile (f : Option String) (j : Job) : Job := { j with csvFile := f }

/-- `scraping_jobs[job_id]['completed_at'] = datetime.now().isoformat()` —
the timestamp value itself is opaque. -/
def setCompletedAtNow (j : Job) : Job := { j with completedAt := some "now" }

/-- The `scraping_jobs` dict. -/
def Registry := List (String × Job)

/-- `job_id in scraping_jobs` / `scraping_jobs[job_id]` lookup. -/
def lookupJob : List (String × Job) → String → Option Job
  | [], _ => none
  | (k, j) :: rest, jid => if k = jid then some j else lookupJob rest jid

/-- Replace the entry of an existing key in place (Python dict field update). -/
def setField : List (String × Job) → String → (Job → Job) → List (String × Job)
  | [], _, _ => []
  | (k, j) :: rest, jid, f =>
    if k = jid then (k, f j) :: rest else (k, j) :: setField rest jid f

/-- One statement `scraping_jobs[job_id][field] = value`: raises `KeyError`
(leaving the dict unchanged) when the id is not present. -/
def updateJob (reg : Registry) (jid : String) (f : Job → Job) :
    Registry × Option PyError :=
  match lookupJob reg jid with
  | some _ => (setField reg jid f, none)
  | none => (reg, some .keyError)

/-- Sequencing of statements in the presence of a raised (pending)
exception: once an exception is pending, later statements do not run. -/
def seqSt (a : Registry × Option PyError)
    (f : Registry → Registry × Option PyError) : Registry × Option PyError :=
  match a with
  | (r, none) => f r
  | (r, some e) => (r, some e)

/-- Run a straight-line sequence of job-field writes against the registry. -/
def runWrites (st : Registry × Option PyError) (jid : String)
    (ws : List (Job → Job)) : Registry × Option PyError :=
  ws.foldl (fun acc f => seqSt acc (fun r => updateJob r jid f)) st

/-- Python `except Exception as e:` around a block: pass a clean outcome
through, run the handler on the raised exception otherwise. -/
def exceptHandler (st : Registry × Option PyError)
    (handler : PyError → Registry → Registry × Option PyError) :
    Registry × Option PyError :=
  match st with
  | (r, none) => (r, none)
  | (r, some e) => handler e r

/-- Apply a sequence of field writes to a single job value. -/
def applyWrites (j : Job) (ws : List (Job → Job)) : Job :=
  ws.foldl (fun a f => f a) j

/-- Outcome of `run_classic_valuer_scraper_real` / `run_classic_com_scraper_real`
(both catch their own exceptions and return a result dict: `success` with the
records found, preview results and CSV file, or a failure with `error`). -/
inductive ScrapeResult
  | success (records : Nat) (csv : Option String) (res : List String)
  | failure (errMsg : String)
deriving DecidableEq, Repr

/-- `str(e)` for a modelled Python exception. -/
def pyErrorMsg : PyError → String
  | .valueError => "ValueError"
  | .zeroDivisionError => "ZeroDivisionError"
  | .keyError => "KeyError"

/-- The writes of the `try:` body of `scrape_classic_valuer_background`
(`scraper_integration.py` lines 239-263), in program order. -/
def valuerBodyWrites (res : ScrapeResult) : List (Job → Job) :=
  [setStatus "running",
   setMessage "Initializing Classic Valuer scraper...",
   setProgress 10,
   setProgress 25,
   setMessage "Launching browser and navigating to market page...",
   setProgress 75,
   setMessage "Processing and saving results..."] ++
  match res with
  | .success n csv rs =>
      [setStatus "completed",
       setMessage ("Successfully scraped " ++ toString n ++ " records from Classic Valuer"),
       setTotalRecords n,
       setResults (rs.take 10),
       setCsvFile csv,
       setProgress 100]
  | .failure e =>
      [setStatus "failed",
       setMessage ("Classic Valuer scraping failed: " ++ e)]

/-- `scrape_classic_valuer_background` (`scraper_integration.py` 237-269):
the `try:` body, the `except Exception` handler (two more dict writes, which
can themselves raise), and the trailing `completed_at` write. -/
def scrape_classic_valuer_background (jid : String) (res : ScrapeResult)
    (reg : Registry) : Registry × Option PyError :=
  let body := runWrites (reg, none) jid (valuerBodyWrites res)
  let afterTry := exceptHandler body (fun e r =>
    runWrites (r, none) jid
      [setStatus "failed",
       setMessage ("Error in Classic Valuer scraper: " ++ pyErrorMsg e)])
  seqSt afterTry (fun r => updateJob r jid setCompletedAtNow)

/-- The writes of the `try:` body of `scrape_classic_com_background`
(`scraper_integration.py` lines 271-296), in program order. -/
def comBodyWrites (res : ScrapeResult) : List (Job → Job) :=
  [setStatus "running",
   setMessage "Initializing Classic.com scraper...",
   setProgress 10,
   setMessage "Launching browser and fetching listings...",
   setProgress 30,
   setProgress 80,
   setMessage "Processing results..."] ++
  match res with
  | .success n csv rs =>
      [setStatus "completed",
       setMessage ("Successfully scraped " ++ toString n ++ " records from Classic.com"),
       setTotalRecords n,
       setResults (rs.take 10),
       setCsvFile csv,
       setProgress 100]
  | .failure e =>
      [setStatus "failed",
       setMessage ("Classic.com scraping failed: " ++ e)]

/-- `scrape_classic_com_background` (`scraper_integration.py` 271-302). -/
def scrape_classic_com_background (jid : String) (res : ScrapeResult)
    (reg : Registry) : Registry × Option PyError :=
  let body := runWrites (reg, none) jid (comBodyWrites res)
  let afterTry := exceptHandler body (fun e r =>
    runWrites (r, none) jid
      [setStatus "failed",
       setMessage ("Error in Classic.com scraper: " ++ pyErrorMsg e)])
  seqSt afterTry (fun r => updateJob r jid setCompletedAtNow)

/-- The three writes `run_classic_valuer_background` performs before calling
into the integration module (`app.py` lines 96-98, `SCRAPERS_AVAILABLE` path). -/
def appValuerPrefixWrites : List (Job → Job) :=
  [setStatus "running",
   setMessage "Initializing Classic Valuer scraper...",
   setProgress 10]

/-- `run_classic_valuer_background` (`app.py` 93-129, real-scraper path):
prefix writes, delegate to the integration runner, `except Exception`
handler with three further dict writes. -/
def run_classic_valuer_background (jid : String) (res : ScrapeResult)
    (reg : Registry) : Registry × Option PyError :=
  let body := seqSt (runWrites (reg, none) jid appValuerPrefixWrites)
    (fun r => scrape_classic_valuer_background jid res r)
  exceptHandler body (fun e r =>
    runWrites (r, none) jid
      [setStatus "failed",
       setMessage ("Error: " ++ pyErrorMsg e),
       setCompletedAtNow])

/-- The three writes `run_classic_com_background` performs before calling
into the integration module (`app.py` lines 134-136). -/
def appComPrefixWrites : List (Job → Job) :=
  [setStatus "running",
   setMessage "Initializing Classic.com scraper...",
   setProgress 10]

/-- `run_classic_com_background` (`app.py` 131-167, real-scraper path). -/
def run_classic_com_background (jid : String) (res : ScrapeResult)
    (reg : Registry) : Registry × Option PyError :=
  let body := seqSt (runWrites (reg, none) jid appComPrefixWrites)
    (fun r => scrape_classic_com_background jid res r)
  exceptHandler body (fun e r =>
    runWrites (r, none) jid
      [setStatus "failed",
       setMessage ("Error: " ++ pyErrorMsg e),
       setCompletedAtNow])

/-! ### Job creation (`start_scraping`, `app.py` 688-731) -/

/-- The job dict created by `start_scraping` for a fresh id. -/
def newJobDict (scraperType : String) : Job :=
  { status := "pending",
    message := scraperType ++ " scraping job queued for processing",
    progress := 0,
    totalRecords := 0,
    results := [],
    csvFile := none,
    completedAt := none }

/-- Python dict assignment `scraping_jobs[job_id] = {...}`: replaces the
entry in place when the key exists, appends otherwise. -/
def dictSet (reg : List (String × Job)) (jid : String) (j : Job) :
    List (String × Job) :=
  match lookupJob reg jid with
  | some _ => setField reg jid (fun _ => j)
  | none => reg ++ [(jid, j)]

inductive CreateError
  | invalidSource
deriving DecidableEq, Repr

/-- `start_scraping`: generates `job_id = str(uuid.uuid4())[:8]` (the
generated id is a parameter here), rejects unknown scraper types with
HTTP 400, and otherwise assigns the fresh job dict under the generated id
unconditionally. -/
def start_scraping (reg : Registry) (scraperType : String)
    (generatedId : String) : Except CreateError (Registry × String) :=
  if scraperType = "classic_valuer" ∨ scraperType = "classic_com" then
    .ok (dictSet reg generatedId (newJobDict scraperType), generatedId)
  else
    .error .invalidSource

/-! ### Results endpoint (`get_job_results`, `app.py` 776-801) -/

inductive HTTPErr
  | notFound
  | notCompleted
deriving DecidableEq, Repr

/-- The JSON body `get_job_results` answers with: either the full CSV data
with its record count, or the job's stored preview results. -/
inductive ResultsResponse
  | csvData (jobId : String) (total : Nat) (data : List String)
  | previewResults (jobId : String) (results : List String)
deriving DecidableEq, Repr

/-- `get_job_results`: 404 on unknown id, 400 ("Job not completed") when the
status is not `completed`, then the CSV contents when the job has an
existing CSV file and the stored preview results otherwise.  `fs` models the
file system as a map from path to CSV contents. -/
def get_job_results (reg : Registry) (jid : String)
    (fs : String → Option (List String)) : Except HTTPErr ResultsResponse :=
  match lookupJob reg jid with
  | none => .error .notFound
  | some job =>
    if job.status ≠ "completed" then .error .notCompleted
    else
      match job.csvFile with
      | some f =>
        match fs f with
        | some recs => .ok (.csvData jid recs.length recs)
        | none => .ok (.previewResults jid job.results)
      | none => .ok (.previewResults jid job.results)

/-! ### Lifetime traces (claim C5)

A job is created by `start_scraping` in `pending` state with progress 0 and
is then driven by exactly one background runner.  For a job that stays in
the registry the runner raises nothing, so its lifetime is the creation
state followed by the straight-line write sequence of the wrapper, the
integration function and the trailing `completed_at` write. -/

/-- All writes of one Classic Valuer job run, in program order. -/
def valuerLifetimeWrites (res : ScrapeResult) : List (Job → Job) :=
  appValuerPrefixWrites ++ valuerBodyWrites res ++ [setCompletedAtNow]

/-- All writes of one Classic.com job run, in program order. -/
def comLifetimeWrites (res : ScrapeResult) : List (Job → Job) :=
  appComPrefixWrites ++ comBodyWrites res ++ [setCompletedAtNow]

/-- Successive job states over a Classic Valuer job's lifetime, starting
from the created (`pending`, progress 0) state. -/
def valuerTrace (res : ScrapeResult) : List Job :=
  List.scanl (fun j f => f j) (newJobDict "classic_valuer") (valuerLifetimeWrites res)

/-- Successive job states over a Classic.com job's lifetime. -/
def comTrace (res : ScrapeResult) : List Job :=
  List.scanl (fun j f => f j) (newJobDict "classic_com") (comLifetimeWrites res)

/-! ## Record normalizer (`theclassicvaluer/playwright_code.py`)

`parse_listing_text` works on one raw text fragment.  The price pattern in
the source file is the byte sequence `C3 82 C2 A3`, i.e. the two characters
`'Â'` (U+00C2) and `'£'` (U+00A3), both in the regexes and in the
`f'Â£{midpoint:,}'` format string; the scanner below matches exactly that
two-character currency prefix. -/

/-- A character of the regex class `[\d,]`. -/
def isDigitComma (c : Char) : Bool := c.isDigit || c == ','

/-- Match the two-character currency prefix of the price patterns. -/
def matchCurrency (cs : List Char) : Option (List Char) :=
  match cs with
  | c1 :: c2 :: rest => if c1 = 'Â' ∧ c2 = '£' then some rest else none
  | _ => none

/-- The optional `(?:\.\d{2})?` tail of an amount group: when the next
characters are `.` and two digits they are absorbed into the group
(making the later `int()` raise), otherwise nothing is consumed. -/
def decimalSplit (tok rest : List Char) : List Char × List Char :=
  match rest with
  | d0 :: d1 :: d2 :: rest2 =>
    if d0 = '.' ∧ d1.isDigit ∧ d2.isDigit then (tok ++ [d0, d1, d2], rest2)
    else (tok, rest)
  | _ => (tok, rest)

/-- One amount group `[\d,]+(?:\.\d{2})?` (greedy; at the positions where
the patterns apply it no backtracking can change the overall match). -/
def matchAmount (cs : List Char) : Option (List Char × List Char) :=
  let tok := cs.takeWhile isDigitComma
  let rest := cs.dropWhile isDigitComma
  if tok.isEmpty then none else some (decimalSplit tok rest)

/-- `\s*`. -/
def dropSpaces (cs : List Char) : List Char := cs.dropWhile Char.isWhitespace

/-- Try the range pattern `Â£(grp)\s*-\s*Â£(grp)` at the current position,
returning the two captured groups. -/
def matchRangeAt (cs : List Char) : Option (List Char × List Char) :=
  match matchCurrency cs with
  | none => none
  | some rest =>
    match matchAmount rest with
    | none => none
    | some (g1, r1) =>
      match dropSpaces r1 with
      | '-' :: r2 =>
        match matchCurrency (dropSpaces r2) with
        | none => none
        | some r3 =>
          match matchAmount r3 with
          | none => none
          | some (g2, _) => some (g1, g2)
      | _ => none

/-- First alternative that matches (Python regex scanning order). -/
def orTry (a : Option α) (b : Unit → Option α) : Option α :=
  match a with
  | some x => some x
  | none => b ()

/-- `re.search` of the range pattern: try every start position, leftmost
match wins. -/
def findRange : List Char → Option (List Char × List Char)
  | [] => none
  | c :: rest => orTry (matchRangeAt (c :: rest)) (fun _ => findRange rest)

/-- Try the single-price pattern `Â£(grp)` at the current position. -/
def matchSingleAt (cs : List Char) : Option (List Char) :=
  match matchCurrency cs with
  | none => none
  | some rest => (matchAmount rest).map Prod.fst

/-- `re.search` of the single-price pattern. -/
def findSingle : List Char → Option (List Char)
  | [] => none
  | c :: rest => orTry (matchSingleAt (c :: rest)) (fun _ => findSingle rest)

/-- `int(group.replace(',', ''))`: drop the commas, then `int`, which
raises `ValueError` unless the remainder is a nonempty digit string. -/
def pyIntGroup (cs : List Char) : Except PyError Nat :=
  let cs2 := cs.filter (fun c => c ≠ ',')
  if cs2.isEmpty then .error .valueError
  else if cs2.all Char.isDigit then .ok (digitsVal cs2)
  else .error .valueError

/-- Decimal digits of `n`, most significant first, with structural fuel
(the fuel `n` always suffices since `n / 10` shrinks at every step). -/
def natDigitsCore : Nat → Nat → List Char
  | 0, _ => []
  | _fuel + 1, 0 => []
  | fuel + 1, n + 1 =>
    natDigitsCore fuel ((n + 1) / 10) ++ [Char.ofNat (48 + (n + 1) % 10)]

/-- Decimal rendering of `n` (Python `str(n)` for nonnegative `n`). -/
def natDigits (n : Nat) : List Char :=
  if n = 0 then ['0'] else natDigitsCore n n

/-- Insert thousands separators into a least-significant-first digit list:
a comma after every third digit. -/
def group3Rev : List Char → Nat → List Char
  | [], _ => []
  | c :: cs, k =>
    if k = 3 then ',' :: c :: group3Rev cs 1 else c :: group3Rev cs (k + 1)

/-- Python's format spec `{:,}` on a most-significant-first digit list. -/
def group3 (ds : List Char) : List Char := (group3Rev ds.reverse 0).reverse

/-- `f'Â£{midpoint:,}'`. -/
def formatPounds (n : Nat) : List Char := 'Â' :: '£' :: group3 (natDigits n)

/-- The price-extraction stage of `parse_listing_text` (lines 241-259): try
the range pattern first; on a range the price is
`f'Â£{int((low + high) / 2):,}'` (`int` of the float quotient truncates, i.e.
floor for these nonnegative values, modelled by `Nat` division); otherwise
the single pattern, kept verbatim as `f"Â£{group}"`; otherwise the empty
string.  `int()` on a group that captured a decimal tail or only commas
raises `ValueError`. -/
def extract_price (text : List Char) : Except PyError (List Char) :=
  match findRange text with
  | some (g1, g2) =>
    match pyIntGroup g1 with
    | .error e => .error e
    | .ok low =>
      match pyIntGroup g2 with
      | .error e => .error e
      | .ok high => .ok (formatPounds ((low + high) / 2))
  | none =>
    match findSingle text with
    | some g => .ok ('Â' :: '£' :: g)
    | none => .ok []

/-! ### Gearbox classification (`parse_listing_text` lines 261-270) -/

/-- Python `needle in haystack` on strings (substring containment). -/
def isSubstring (needle : List Char) : List Char → Bool
  | [] => needle.isEmpty
  | c :: rest => needle.isPrefixOf (c :: rest) || isSubstring needle rest

def manual_indicators : List (List Char) :=
  ["manual".data, "stick".data, "clutch".data, "5-speed".data, "6-speed".data, "mt".data]

def auto_indicators : List (List Char) :=
  ["automatic".data, "auto".data, "tiptronic".data, "dsg".data, "cvt".data, "paddle".data]

/-- `has_manual = any(indicator in text_lower for indicator in manual_indicators)`. -/
def hasManualIndicator (text : List Char) : Bool :=
  manual_indicators.any (fun ind => isSubstring ind (text.map Char.toLower))

/-- `has_auto = any(indicator in text_lower for indicator in auto_indicators)`. -/
def hasAutoIndicator (text : List Char) : Bool :=
  auto_indicators.any (fun ind => isSubstring ind (text.map Char.toLower))

/-- `manual_gearbox = has_manual and not has_auto`. -/
def parseManualGearbox (text : List Char) : Bool :=
  hasManualIndicator text && !hasAutoIndicator text

/-! ### Validity check and the filter-then-dedup sweep -/

/-- A parsed candidate record as `parse_listing_text` returns it. -/
structure VehicleData where
  make : String
  model : String
  production_year : String
  date_of_sale : String
  sold_price : String
  manual_gearbox : Bool
  description : String
  auction_house : String
  country_of_sale : String
  spyder : Bool
deriving DecidableEq, Repr

/-- Python `str.strip()`: remove leading and trailing whitespace. -/
def pyStrip (s : String) : List Char :=
  ((s.data.dropWhile Char.isWhitespace).reverse.dropWhile Char.isWhitespace).reverse

/-- `is_valid_vehicle_listing` (lines 426-435): at least two of
make-or-model nonempty, year nonempty, price nonempty, stripped description
longer than 20 characters. -/
def is_valid_vehicle_listing (v : VehicleData) : Bool :=
  let hasMakeOrModel : Bool := decide (v.make ≠ "" ∨ v.model ≠ "")
  let hasYear : Bool := decide (v.production_year ≠ "")
  let hasPrice : Bool := decide (v.sold_price ≠ "")
  let hasMeaningfulDescription : Bool := decide (20 < (pyStrip v.description).length)
  decide (2 ≤ hasMakeOrModel.toNat + hasYear.toNat + hasPrice.toNat +
    hasMeaningfulDescription.toNat)

/-- The dedup key of `process_vehicle_listings` (lines 212-218):
lower-cased make and model, year, price. -/
def dedupKey (v : VehicleData) : String × String × String × String :=
  (pyLower v.make, pyLower v.model, v.production_year, v.sold_price)

/-- The `seen_vehicles` sweep of `process_vehicle_listings` (lines 208-222):
keep the first record for each key. -/
def dedupUnique :
    List VehicleData → List (String × String × String × String) → List VehicleData
  | [], _ => []
  | v :: rest, seen =>
    if dedupKey v ∈ seen then dedupUnique rest seen
    else v :: dedupUnique rest (dedupKey v :: seen)

/-- `process_vehicle_listings` from the point where fragments are parsed:
only candidates passing `is_valid_vehicle_listing` reach the dedup sweep
(lines 200-222; the preceding raw-text hash screen and the per-fragment
exception guard operate before parsing and are not involved in the claims). -/
def process_vehicle_listings (ls : List VehicleData) : List VehicleData :=
  dedupUnique (ls.filter is_valid_vehicle_listing) []

/-! ### The per-run acceptance loop of `run_classic_com_scraper_real`
(`scraper_integration.py` 136-211, claim C10)

`existing_entries` is loaded once before the loop; the loop appends accepted
rows to `new_data` only, and a row whose `is_duplicate` call raises is
skipped by the per-row `except ... continue`. -/

/-- The scraping loop, threading the accumulated `new_data` exactly as the
code does. -/
def comAcceptLoop (history : List Row) (newData : List Row) :
    List Row → List Row
  | [] => newData
  | r :: rest =>
    match is_duplicate r history with
    | .ok false => comAcceptLoop history (newData ++ [r]) rest
    | _ => comAcceptLoop history newData rest

/-- The rows accepted by one run over a fixed loaded history. -/
def run_classic_com_accepted (history : List Row) (rows : List Row) : List Row :=
  comAcceptLoop history [] rows

/-- Decidable form of "the duplicate check accepts this row". -/
def acceptedAgainst (history : List Row) (r : Row) : Bool :=
  match is_duplicate r history with
  | .ok false => true
  | _ => false

/-- A concrete job in `running` state. -/
def runningJobW : Job :=
  { status := "running", message := "Launching browser and fetching listings...",
    progress := 30, totalRecords := 0, results := [], csvFile := none,
    completedAt := none }

/-- A concrete completed job with a persisted CSV output. -/
def completedJobW : Job :=
  { status := "completed", message := "Successfully scraped 2 records from Classic.com",
    progress := 100, totalRecords := 2, results := ["rec1"],
    csvFile := some "out.csv", completedAt := some "now" }

/-- A concrete file system holding the completed job's CSV. -/
def fsW : String → Option (List String) :=
  fun f => if f = "out.csv" then some ["rec1", "rec2"] else none

/-- A concrete pre-existing job whose id a fresh creation collides with. -/
def collisionOldJob : Job :=
  { status := "completed", message := "done", progress := 100, totalRecords := 3,
    results := ["r1"], csvFile := some "old.csv", completedAt := some "t" }

/-- A concrete extraction-noise candidate: price present but no make, no
model, no year and a 10-character description — one criterion of four. -/
def noiseCandidate : VehicleData :=
  { make := "", model := "", production_year := "", date_of_sale := "",
    sold_price := "£85,000", manual_gearbox := false,
    description := "short text", auction_house := "", country_of_sale := "",
    spyder := false }

/-! ## Theorems -/

/-! ### Deduplicator lemmas -/

/-- The loop of `is_duplicate` returns `true` exactly on an exact-match key
with a price inside the tolerance, provided the candidate's price is nonzero
and every history price normalizes. -/
theorem isDupLoop_true_iff (cand : Row) (n : Nat) (hn : n ≠ 0) :
    ∀ history : List Row,
    (∀ ex ∈ history, ∃ e, normalize_price ex.soldPrice = .ok e) →
    (isDupLoop cand n history = .ok true ↔
      ∃ ex ∈ history, cand.make = ex.make ∧ cand.model = ex.model ∧
        cand.dateOfSale = ex.dateOfSale ∧
        ∃ e, normalize_price ex.soldPrice = .ok e ∧ within5Percent e n = true)
  | [] => by intro _; simp [isDupLoop]
  | ex :: rest => by
    intro hall
    obtain ⟨e, he⟩ := hall ex (List.mem_cons_self _ _)
    have ihrest := isDupLoop_true_iff cand n hn rest
      (fun x hx => hall x (List.mem_cons_of_mem _ hx))
    by_cases hkey : cand.make = ex.make ∧ cand.model = ex.model ∧
        cand.dateOfSale = ex.dateOfSale
    · by_cases hw : within5Percent e n = true
      · simp only [isDupLoop, he]
        rw [if_pos hkey, if_neg hn, if_pos hw]
        refine iff_of_true rfl ⟨ex, List.mem_cons_self _ _, hkey.1, hkey.2.1,
          hkey.2.2, e, he, hw⟩
      · simp only [isDupLoop, he]
        rw [if_pos hkey, if_neg hn, if_neg hw, ihrest]
        constructor
        · rintro ⟨x, hx, h1, h2, h3, e', he', hw'⟩
          exact ⟨x, List.mem_cons_of_mem _ hx, h1, h2, h3, e', he', hw'⟩
        · rintro ⟨x, hx, h1, h2, h3, e', he', hw'⟩
          rcases List.mem_cons.mp hx with hhead | htail
          · subst hhead
            injection he.symm.trans he' with h
            subst h
            exact absurd hw' hw
          · exact ⟨x, htail, h1, h2, h3, e', he', hw'⟩
    · simp only [isDupLoop, he]
      rw [if_neg hkey, ihrest]
      constructor
      · rintro ⟨x, hx, h1, h2, h3, e', he', hw'⟩
        exact ⟨x, List.mem_cons_of_mem _ hx, h1, h2, h3, e', he', hw'⟩
      · rintro ⟨x, hx, h1, h2, h3, e', he', hw'⟩
        rcases List.mem_cons.mp hx with hhead | htail
        · subst hhead
          exact absurd ⟨h1, h2, h3⟩ hkey
        · exact ⟨x, htail, h1, h2, h3, e', he', hw'⟩

/-- The integer comparison actually performed is the exact rational
±5 % tolerance against the new price as denominator. -/
theorem within5Percent_iff_ratio (e n : Nat) (hn : n ≠ 0) :
    within5Percent e n = true ↔ |(e : ℚ) - (n : ℚ)| / (n : ℚ) ≤ 5 / 100 := by
  have hn0 : (0 : ℚ) < (n : ℚ) := by exact_mod_cast Nat.pos_of_ne_zero hn
  have habs : (((e : Int) - (n : Int)).natAbs : ℚ) = |(e : ℚ) - (n : ℚ)| := by
    rw [Int.cast_natAbs]
    push_cast
    ring_nf
  rw [within5Percent, decide_eq_true_iff, div_le_div_iff₀ hn0 (by norm_num), ← habs]
  constructor
  · intro h
    have h2 : ((100 * ((e : Int) - (n : Int)).natAbs : ℕ) : ℚ) ≤ ((5 * n : ℕ) : ℚ) := by
      exact_mod_cast h
    push_cast at h2
    linarith
  · intro h
    have h2 : ((100 * ((e : Int) - (n : Int)).natAbs : ℕ) : ℚ) ≤ ((5 * n : ℕ) : ℚ) := by
      push_cast
      linarith
    exact_mod_cast h2

/-- `is_duplicate` characterized (exact-match keys, nonzero parseable
candidate price, all history prices parseable). -/
theorem is_duplicate_true_iff (cand : Row) (history : List Row) (n : Nat)
    (hnorm : normalize_price cand.soldPrice = .ok n) (hn : n ≠ 0)
    (hall : ∀ ex ∈ history, ∃ e, normalize_price ex.soldPrice = .ok e) :
    (is_duplicate cand history = .ok true ↔
      ∃ ex ∈ history, cand.make = ex.make ∧ cand.model = ex.model ∧
        cand.dateOfSale = ex.dateOfSale ∧
        ∃ e, normalize_price ex.soldPrice = .ok e ∧
          |(e : ℚ) - (n : ℚ)| / (n : ℚ) ≤ 5 / 100) := by
  rw [is_duplicate, hnorm]
  rw [isDupLoop_true_iff cand n hn history hall]
  constructor
  · rintro ⟨x, hx, h1, h2, h3, e', he', hw'⟩
    exact ⟨x, hx, h1, h2, h3, e', he', (within5Percent_iff_ratio e' n hn).mp hw'⟩
  · rintro ⟨x, hx, h1, h2, h3, e', he', hw'⟩
    exact ⟨x, hx, h1, h2, h3, e', he', (within5Percent_iff_ratio e' n hn).mpr hw'⟩

/-! ### Claim C1 -/

/-- Claim C1, counterexample: the key comparison in `is_duplicate` is exact
(case-sensitive), not case-insensitive as the claim states.  A candidate
whose make differs from a history record only in letter case — with equal
model, sale date and price — satisfies the claim's criterion, yet
`is_duplicate` returns `false`. -/
theorem is_duplicate_not_case_insensitive :
    is_duplicate ⟨"ferrari", "F40", "15/07/2024", "£100"⟩
        [⟨"Ferrari", "F40", "15/07/2024", "£100"⟩] = .ok false ∧
      specDuplicateCriterion ⟨"ferrari", "F40", "15/07/2024", "£100"⟩
        [⟨"Ferrari", "F40", "15/07/2024", "£100"⟩] := by
  constructor
  · rfl
  · refine ⟨⟨"Ferrari", "F40", "15/07/2024", "£100"⟩, List.mem_singleton.mpr rfl,
      rfl, rfl, rfl, 100, 100, rfl, rfl, by norm_num⟩

/-- Claim C1, amended: `is_duplicate(candidate, history)` returns true iff
some history record matches the candidate on (make, model, sale date) under
EXACT (case-sensitive) string comparison and the absolute difference of the
two normalized prices divided by the new candidate's normalized price is at
most 0.05 — stated under the evaluation-soundness side conditions that the
candidate's price normalizes to a nonzero value and every history price
normalizes (otherwise `is_duplicate` raises instead of returning). -/
theorem is_duplicate_exact_key_within5 (cand : Row) (history : List Row) (n : Nat)
    (hnorm : normalize_price cand.soldPrice = .ok n) (hn : n ≠ 0)
    (hall : ∀ ex ∈ history, ∃ e, normalize_price ex.soldPrice = .ok e) :
    is_duplicate cand history = .ok true ↔
      ∃ ex ∈ history, cand.make = ex.make ∧ cand.model = ex.model ∧
        cand.dateOfSale = ex.dateOfSale ∧
        ∃ e, normalize_price ex.soldPrice = .ok e ∧
          |(e : ℚ) - (n : ℚ)| / (n : ℚ) ≤ 5 / 100 :=
  is_duplicate_true_iff cand history n hnorm hn hall

/-- Witness for C1: records with identical make/model/date whose prices
differ by 0.8 % of the new price are flagged as duplicates. -/
theorem is_duplicate_exact_key_within5_witness :
    is_duplicate ⟨"Ferrari", "250 GT", "15/07/2024", "£2,520,000"⟩
      [⟨"Ferrari", "250 GT", "15/07/2024", "£2,500,000"⟩] = .ok true := by
  refine (is_duplicate_exact_key_within5
      ⟨"Ferrari", "250 GT", "15/07/2024", "£2,520,000"⟩
      [⟨"Ferrari", "250 GT", "15/07/2024", "£2,500,000"⟩] 2520000 rfl (by decide)
      ?_).mpr ?_
  · intro ex hx
    rw [List.mem_singleton] at hx
    subst hx
    exact ⟨2500000, rfl⟩
  · refine ⟨⟨"Ferrari", "250 GT", "15/07/2024", "£2,500,000"⟩,
      List.mem_singleton.mpr rfl, rfl, rfl, rfl, 2500000, rfl, by norm_num⟩

/-! ### Claim C2 -/

/-- Claim C2, counterexample: on a candidate whose price field contains no
digit, `is_duplicate` does not return `false` — `int(re.sub(r"[^\d]", "",
price))` raises `ValueError` before the history is even scanned. -/
theorem is_duplicate_raises_on_nonnumeric_price :
    is_duplicate ⟨"Ferrari", "F40", "15/07/2024", "N/A"⟩ [] =
      .error PyError.valueError := rfl

/-- Claim C2, amended: a candidate price that is empty or non-numeric makes
`is_duplicate` raise `ValueError` for every history; a price that normalizes
to zero returns `false` when no history record matches the (make, model,
date) key, and raises `ZeroDivisionError` as soon as one does (history
prices assumed parseable so evaluation reaches the division). -/
theorem is_duplicate_unparseable_price (cand : Row) (history : List Row) :
    ((stripNonDigits cand.soldPrice).isEmpty = true →
      is_duplicate cand history = .error .valueError) ∧
    (normalize_price cand.soldPrice = .ok 0 →
      (∀ ex ∈ history, ∃ e, normalize_price ex.soldPrice = .ok e) →
      ((∀ ex ∈ history, ¬(cand.make = ex.make ∧ cand.model = ex.model ∧
          cand.dateOfSale = ex.dateOfSale)) →
        is_duplicate cand history = .ok false) ∧
      ((∃ ex ∈ history, cand.make = ex.make ∧ cand.model = ex.model ∧
          cand.dateOfSale = ex.dateOfSale) →
        is_duplicate cand history = .error .zeroDivisionError)) := by
  constructor
  · intro hempty
    rw [is_duplicate, normalize_price]
    simp [hempty]
  · intro hzero hall
    rw [is_duplicate, hzero]
    clear hzero
    induction history with
    | nil => simp [isDupLoop]
    | cons ex rest ih =>
      obtain ⟨e, he⟩ := hall ex (List.mem_cons_self _ _)
      have ihrest := ih (fun x hx => hall x (List.mem_cons_of_mem _ hx))
      constructor
      · intro hnone
        have hkey := hnone ex (List.mem_cons_self _ _)
        simp only [isDupLoop, he]
        rw [if_neg hkey]
        exact ihrest.1 (fun x hx => hnone x (List.mem_cons_of_mem _ hx))
      · rintro ⟨x, hx, hmatch⟩
        rcases List.mem_cons.mp hx with hhead | htail
        · subst hhead
          simp only [isDupLoop, he]
          rw [if_pos hmatch, if_pos trivial]
        · by_cases hkey : cand.make = ex.make ∧ cand.model = ex.model ∧
              cand.dateOfSale = ex.dateOfSale
          · simp only [isDupLoop, he]
            rw [if_pos hkey, if_pos trivial]
          · simp only [isDupLoop, he]
            rw [if_neg hkey]
            exact ihrest.2 ⟨x, htail, hmatch⟩

/-- Witness for C2 (amended): both raising behaviors at concrete inputs. -/
theorem is_duplicate_unparseable_price_witness :
    is_duplicate ⟨"Ferrari", "F40", "15/07/2024", "price on request"⟩
        [⟨"Porsche", "911", "01/01/2020", "£10"⟩] = .error PyError.valueError ∧
      is_duplicate ⟨"Ferrari", "F40", "15/07/2024", "£0"⟩
        [⟨"Ferrari", "F40", "15/07/2024", "£10"⟩] = .error PyError.zeroDivisionError := by
  constructor
  · exact (is_duplicate_unparseable_price
      ⟨"Ferrari", "F40", "15/07/2024", "price on request"⟩
      [⟨"Porsche", "911", "01/01/2020", "£10"⟩]).1 rfl
  · refine ((is_duplicate_unparseable_price
      ⟨"Ferrari", "F40", "15/07/2024", "£0"⟩
      [⟨"Ferrari", "F40", "15/07/2024", "£10"⟩]).2 rfl ?_).2 ?_
    · intro ex hx
      rw [List.mem_singleton] at hx
      subst hx
      exact ⟨10, rfl⟩
    · exact ⟨⟨"Ferrari", "F40", "15/07/2024", "£10"⟩, List.mem_singleton.mpr rfl,
        rfl, rfl, rfl⟩

/-! ### Claim C10 -/

/-- The acceptance loop, although it threads the accumulated `new_data`
list, consults only the fixed loaded history. -/
theorem comAcceptLoop_eq_filter (history : List Row) :
    ∀ (rows newData : List Row),
      comAcceptLoop history newData rows =
        newData ++ rows.filter (acceptedAgainst history)
  | [], newData => by simp [comAcceptLoop]
  | r :: rest, newData => by
    rw [comAcceptLoop]
    rcases h : is_duplicate r history with e | b
    · have ha : acceptedAgainst history r = false := by
        rw [acceptedAgainst, h]
      rw [comAcceptLoop_eq_filter history rest newData, List.filter_cons, ha]
      simp
    · cases b
      · have ha : acceptedAgainst history r = true := by
          rw [acceptedAgainst, h]
        rw [comAcceptLoop_eq_filter history rest (newData ++ [r]),
          List.filter_cons, ha]
        simp
      · have ha : acceptedAgainst history r = false := by
          rw [acceptedAgainst, h]
        rw [comAcceptLoop_eq_filter history rest newData, List.filter_cons, ha]
        simp

/-- Claim C10: within one run of the Classic.com pipeline the history
consulted by `is_duplicate` is the set loaded at run start and is never
extended by records accepted during the run — the accepted output is
exactly the pointwise filter of the input rows against that fixed history,
so accepting a record never changes a later decision, and a row accepted
once is accepted again when it reappears in the same batch. -/
theorem com_run_history_fixed (history rows : List Row) :
    run_classic_com_accepted history rows =
      rows.filter (acceptedAgainst history) ∧
    ∀ r : Row, acceptedAgainst history r = true →
      run_classic_com_accepted history [r, r] = [r, r] := by
  constructor
  · rw [run_classic_com_accepted, comAcceptLoop_eq_filter history rows []]
    simp
  · intro r hr
    rw [run_classic_com_accepted, comAcceptLoop_eq_filter history [r, r] []]
    simp [hr]

/-- Witness for C10: two identical candidate rows in one batch are both
accepted against an empty loaded history. -/
theorem com_run_history_fixed_witness :
    run_classic_com_accepted []
        [⟨"Jaguar", "E-Type", "18/07/2024", "£120,000"⟩,
         ⟨"Jaguar", "E-Type", "18/07/2024", "£120,000"⟩] =
      [⟨"Jaguar", "E-Type", "18/07/2024", "£120,000"⟩,
       ⟨"Jaguar", "E-Type", "18/07/2024", "£120,000"⟩] :=
  (com_run_history_fixed []
      [⟨"Jaguar", "E-Type", "18/07/2024", "£120,000"⟩,
       ⟨"Jaguar", "E-Type", "18/07/2024", "£120,000"⟩]).2
    ⟨"Jaguar", "E-Type", "18/07/2024", "£120,000"⟩ rfl

/-! ### Claim C8 -/

/-- Claim C8: the gearbox is classified as manual exactly when some manual
indicator word occurs in the lower-cased text and no automatic indicator
does; when indicators of both kinds co-occur the classification is not
manual (the boolean `manual_gearbox` field defaults to its unknown value
`false`, never a guess of manual). -/
theorem gearbox_manual_iff (text : List Char) :
    (parseManualGearbox text = true ↔
      hasManualIndicator text = true ∧ hasAutoIndicator text = false) ∧
    (hasManualIndicator text = true → hasAutoIndicator text = true →
      parseManualGearbox text = false) := by
  constructor
  · rw [parseManualGearbox]
    cases hm : hasManualIndicator text <;> cases ha : hasAutoIndicator text <;> simp
  · intro hm ha
    rw [parseManualGearbox, hm, ha]
    rfl

/-- Witness for C8: a text containing both "manual" and "tiptronic" is not
classified as manual. -/
theorem gearbox_manual_iff_witness :
    parseManualGearbox "1997 Porsche 911 Manual or Tiptronic".data = false :=
  (gearbox_manual_iff "1997 Porsche 911 Manual or Tiptronic".data).2 rfl rfl

/-! ### Claim C6 -/

/-- Everything the dedup sweep emits comes from its input list. -/
theorem mem_dedupUnique :
    ∀ (ls : List VehicleData) (seen : List (String × String × String × String))
      (v : VehicleData), v ∈ dedupUnique ls seen → v ∈ ls
  | [], _, _, h => by simp [dedupUnique] at h
  | w :: rest, seen, v, h => by
    rw [dedupUnique] at h
    by_cases hk : dedupKey w ∈ seen
    · rw [if_pos hk] at h
      exact List.mem_cons_of_mem _ (mem_dedupUnique rest seen v h)
    · rw [if_neg hk] at h
      rcases List.mem_cons.mp h with hv | hv
      · exact hv ▸ List.mem_cons_self _ _
      · exact List.mem_cons_of_mem _ (mem_dedupUnique rest _ v hv)

/-- Claim C6: the validity check holds iff at least two of the four
criteria (make-or-model present, year present, price present, stripped
description longer than the 20-character threshold) hold, and a candidate
meeting fewer than two criteria never reaches the output of the
filter-then-deduplicate sweep. -/
theorem valid_listing_two_of_four (v : VehicleData) (ls : List VehicleData) :
    (is_valid_vehicle_listing v = true ↔
      2 ≤ ((if v.make ≠ "" ∨ v.model ≠ "" then 1 else 0) +
           (if v.production_year ≠ "" then 1 else 0) +
           (if v.sold_price ≠ "" then 1 else 0) +
           (if 20 < (pyStrip v.description).length then 1 else 0) : Nat)) ∧
    (((if v.make ≠ "" ∨ v.model ≠ "" then 1 else 0) +
      (if v.production_year ≠ "" then 1 else 0) +
      (if v.sold_price ≠ "" then 1 else 0) +
      (if 20 < (pyStrip v.description).length then 1 else 0) : Nat) < 2 →
      v ∉ process_vehicle_listings ls) := by
  have hiff : is_valid_vehicle_listing v = true ↔
      2 ≤ ((if v.make ≠ "" ∨ v.model ≠ "" then 1 else 0) +
           (if v.production_year ≠ "" then 1 else 0) +
           (if v.sold_price ≠ "" then 1 else 0) +
           (if 20 < (pyStrip v.description).length then 1 else 0) : Nat) := by
    rw [is_valid_vehicle_listing, decide_eq_true_iff]
    by_cases h1 : v.make ≠ "" ∨ v.model ≠ "" <;>
      by_cases h2 : v.production_year ≠ "" <;>
      by_cases h3 : v.sold_price ≠ "" <;>
      by_cases h4 : 20 < (pyStrip v.description).length <;>
      simp [h1, h2, h3, h4]
  refine ⟨hiff, fun hlt hmem => ?_⟩
  have hvalid : is_valid_vehicle_listing v = true :=
    (List.mem_filter.mp (mem_dedupUnique _ _ v hmem)).2
  exact absurd (hiff.mp hvalid) (by omega)

/-- Witness for C6: a candidate with only a price (one criterion) is absent
from the processed output even though it was in the input. -/
theorem valid_listing_two_of_four_witness :
    noiseCandidate ∉ process_vehicle_listings [noiseCandidate] :=
  (valid_listing_two_of_four noiseCandidate [noiseCandidate]).2 (by decide)

/-! ### Claim C9 -/

/-- Claim C9: for a known job id whose status is not `completed` (pending,
running or failed alike), `get_job_results` fails with the NotCompleted
error (HTTP 400) and returns no record set; for a completed job whose CSV
output exists it returns the full persisted record set with its count. -/
theorem get_job_results_not_completed (reg : Registry) (jid : String)
    (fs : String → Option (List String)) (job : Job)
    (hjob : lookupJob reg jid = some job) :
    (job.status ≠ "completed" →
      get_job_results reg jid fs = .error .notCompleted) ∧
    (∀ f recs, job.status = "completed" → job.csvFile = some f →
      fs f = some recs →
      get_job_results reg jid fs = .ok (.csvData jid recs.length recs)) := by
  constructor
  · intro hst
    simp only [get_job_results, hjob]
    rw [if_pos hst]
  · intro f recs hst hcsv hfs
    simp only [get_job_results, hjob]
    rw [if_neg (by simp [hst])]
    simp only [hcsv, hfs]

/-- Witness for C9: a running job is refused; the same registry's completed
job yields its full CSV contents. -/
theorem get_job_results_not_completed_witness :
    get_job_results [("a1", runningJobW), ("b2", completedJobW)] "a1" fsW =
        .error HTTPErr.notCompleted ∧
      get_job_results [("a1", runningJobW), ("b2", completedJobW)] "b2" fsW =
        .ok (.csvData "b2" 2 ["rec1", "rec2"]) := by
  constructor
  · exact (get_job_results_not_completed
      [("a1", runningJobW), ("b2", completedJobW)] "a1" fsW runningJobW rfl).1
      (by decide)
  · exact (get_job_results_not_completed
      [("a1", runningJobW), ("b2", completedJobW)] "b2" fsW completedJobW rfl).2
      "out.csv" ["rec1", "rec2"] rfl rfl rfl

/-! ### Claim C4 -/

/-- Looking up the key just replaced in place. -/
theorem lookupJob_setField_self :
    ∀ (reg : List (String × Job)) (jid : String) (f : Job → Job) (j : Job),
      lookupJob reg jid = some j →
      lookupJob (setField reg jid f) jid = some (f j)
  | [], _, _, _, h => by simp [lookupJob] at h
  | (k, j0) :: rest, jid, f, j, h => by
    by_cases hk : k = jid
    · rw [lookupJob, if_pos hk] at h
      injection h with h
      subst h
      rw [setField, if_pos hk, lookupJob, if_pos hk]
    · rw [lookupJob, if_neg hk] at h
      rw [setField, if_neg hk, lookupJob, if_neg hk]
      exact lookupJob_setField_self rest jid f j h

/-- Claim C4, counterexample: when the generated id collides with an
existing entry, `start_scraping` does not retry id generation — it
overwrites the stored job in place with the fresh pending job dict. -/
theorem start_scraping_overwrites_on_collision :
    start_scraping [("abc12345", collisionOldJob)] "classic_valuer" "abc12345" =
        .ok ([("abc12345", newJobDict "classic_valuer")], "abc12345") ∧
      newJobDict "classic_valuer" ≠ collisionOldJob := by
  constructor
  · rfl
  · decide

/-- Claim C4, amended: for a registered source, `create` always succeeds by
assigning the fresh job dict under the generated id unconditionally; if the
generated id is already present, the existing job's entry is replaced (no
retry of id generation). -/
theorem start_scraping_always_inserts (reg : Registry) (scraperType gid : String)
    (jold : Job)
    (htype : scraperType = "classic_valuer" ∨ scraperType = "classic_com")
    (hcoll : lookupJob reg gid = some jold) :
    ∃ reg', start_scraping reg scraperType gid = .ok (reg', gid) ∧
      lookupJob reg' gid = some (newJobDict scraperType) := by
  refine ⟨dictSet reg gid (newJobDict scraperType), ?_, ?_⟩
  · rw [start_scraping, if_pos htype]
  · rw [dictSet, hcoll]
    exact lookupJob_setField_self reg gid _ jold hcoll

/-- Witness for C4 (amended): the collision registry from the
counterexample, run through the amended statement. -/
theorem start_scraping_always_inserts_witness :
    ∃ reg', start_scraping [("abc12345", collisionOldJob)] "classic_com" "abc12345" =
        .ok (reg', "abc12345") ∧
      lookupJob reg' "abc12345" = some (newJobDict "classic_com") :=
  start_scraping_always_inserts [("abc12345", collisionOldJob)] "classic_com"
    "abc12345" collisionOldJob (Or.inr rfl) rfl

/-! ### Claim C3 -/

/-- A pending exception short-circuits every later write. -/
theorem runWrites_error (jid : String) (r : Registry) (e : PyError) :
    ∀ ws : List (Job → Job), runWrites (r, some e) jid ws = (r, some e)
  | [] => rfl
  | _ :: ws => runWrites_error jid r e ws

/-- Any nonempty write sequence against a missing job id raises `KeyError`
at its first write and changes nothing. -/
theorem runWrites_missing (jid : String) (reg : Registry)
    (h : lookupJob reg jid = none) (w : Job → Job) (ws : List (Job → Job)) :
    runWrites (reg, none) jid (w :: ws) = (reg, some .keyError) := by
  have h1 : updateJob reg jid w = (reg, some .keyError) := by
    rw [updateJob, h]
  show runWrites (seqSt (reg, none) fun r => updateJob r jid w) jid ws = _
  rw [show seqSt (reg, none) (fun r => updateJob r jid w) = (reg, some .keyError)
    from h1]
  exact runWrites_error jid reg .keyError ws

/-- Claim C3, counterexample: with the job deleted from the registry, the
very first registry update of the runner raises `KeyError`; the `except`
handler's own update raises `KeyError` again, so the background task
terminates with an uncaught exception instead of treating the updates as
no-ops. -/
theorem runner_deleted_job_keyError_example :
    scrape_classic_valuer_background "job1" (.failure "boom") [] =
        ([], some PyError.keyError) ∧
      run_classic_valuer_background "job1" (.failure "boom") [] =
        ([], some PyError.keyError) := ⟨rfl, rfl⟩

/-- Claim C3, amended: a registry update against a deleted job id raises
`KeyError` rather than being a no-op; the runner's exception handler
re-raises `KeyError` when it tries to record the failure, so both the
integration runner and its `app.py` wrapper terminate with the uncaught
`KeyError`, writing no further state (the registry is left unchanged). -/
theorem runner_deleted_job_raises (jid : String) (res : ScrapeResult)
    (reg : Registry) (h : lookupJob reg jid = none) :
    scrape_classic_valuer_background jid res reg = (reg, some .keyError) ∧
      run_classic_valuer_background jid res reg = (reg, some .keyError) := by
  have hbody : runWrites (reg, none) jid (valuerBodyWrites res) =
      (reg, some .keyError) := by
    rw [show valuerBodyWrites res = setStatus "running" ::
        (valuerBodyWrites res).tail from rfl]
    exact runWrites_missing jid reg h _ _
  have hhandler1 : runWrites (reg, none) jid [setStatus "failed",
      setMessage ("Error in Classic Valuer scraper: " ++ pyErrorMsg .keyError)] =
      (reg, some .keyError) := runWrites_missing jid reg h _ _
  have hscrape : scrape_classic_valuer_background jid res reg =
      (reg, some .keyError) := by
    simp only [scrape_classic_valuer_background, hbody, exceptHandler, hhandler1]
    rfl
  refine ⟨hscrape, ?_⟩
  have hpre : runWrites (reg, none) jid appValuerPrefixWrites =
      (reg, some .keyError) := runWrites_missing jid reg h _ _
  have hhandler2 : runWrites (reg, none) jid [setStatus "failed",
      setMessage ("Error: " ++ pyErrorMsg .keyError), setCompletedAtNow] =
      (reg, some .keyError) := runWrites_missing jid reg h _ _
  simp only [run_classic_valuer_background, hpre, seqSt, hscrape, exceptHandler,
    hhandler2]

/-- Witness for C3 (amended): a just-deleted singleton registry. -/
theorem runner_deleted_job_raises_witness :
    scrape_classic_valuer_background "x1" (.success 5 (some "f.csv") ["r"])
        [("other", newJobDict "classic_valuer")] =
      ([("other", newJobDict "classic_valuer")], some PyError.keyError) :=
  (runner_deleted_job_raises "x1" (.success 5 (some "f.csv") ["r"])
    [("other", newJobDict "classic_valuer")] (by decide)).1

/-! ### Claim C5 -/

/-- Claim C5: over a single job's lifetime — creation in `pending` with
progress 0, then the straight-line write sequence of the app wrapper, the
integration runner and the final `completed_at` write — the successive
progress values are monotonically non-decreasing, and the final progress is
exactly 100 iff the final status is `completed` (a failed job keeps its
last sub-100 progress value); this holds for both the Classic Valuer and
the Classic.com pipelines and for both scrape outcomes. -/
theorem progress_monotone_and_final (res : ScrapeResult) :
    (List.Chain' (· ≤ ·) ((valuerTrace res).map Job.progress) ∧
      (((valuerTrace res).getLastD (newJobDict "classic_valuer")).progress = 100 ↔
        ((valuerTrace res).getLastD (newJobDict "classic_valuer")).status =
          "completed")) ∧
    (List.Chain' (· ≤ ·) ((comTrace res).map Job.progress) ∧
      (((comTrace res).getLastD (newJobDict "classic_com")).progress = 100 ↔
        ((comTrace res).getLastD (newJobDict "classic_com")).status =
          "completed")) := by
  cases res <;>
    · refine ⟨⟨?_, ?_⟩, ⟨?_, ?_⟩⟩ <;>
        simp [valuerTrace, comTrace, valuerLifetimeWrites, comLifetimeWrites,
          appValuerPrefixWrites, appComPrefixWrites, valuerBodyWrites,
          comBodyWrites, newJobDict, setStatus, setMessage, setProgress,
          setTotalRecords, setResults, setCsvFile, setCompletedAtNow,
          List.scanl_cons, List.scanl_nil, List.chain'_cons]

/-! ### Claim C7: digit-string lemmas -/

/-- The rendered digit characters are digits with the intended values. -/
theorem digit_char_props (k : Nat) (hk : k < 10) :
    (Char.ofNat (48 + k)).isDigit = true ∧ digitVal (Char.ofNat (48 + k)) = k := by
  interval_cases k <;> exact ⟨by decide, by decide⟩

/-- `digitsVal` peels the least significant digit off the right. -/
theorem digitsVal_append_digit (l : List Char) (c : Char) :
    digitsVal (l ++ [c]) = 10 * digitsVal l + digitVal c := by
  rw [digitsVal, digitsVal, List.foldl_append]
  rfl

/-- Every character `natDigitsCore` emits is a digit. -/
theorem natDigitsCore_digits :
    ∀ (fuel n : Nat), ∀ c ∈ natDigitsCore fuel n, c.isDigit = true
  | 0, _, c, hc => by simp [natDigitsCore] at hc
  | _ + 1, 0, c, hc => by simp [natDigitsCore] at hc
  | fuel + 1, n + 1, c, hc => by
    rw [natDigitsCore] at hc
    rcases List.mem_append.mp hc with h | h
    · exact natDigitsCore_digits fuel ((n + 1) / 10) c h
    · rw [List.mem_singleton.mp h]
      exact (digit_char_props _ (Nat.mod_lt _ (by norm_num))).1

/-- `natDigitsCore` renders exactly its argument when given enough fuel. -/
theorem digitsVal_natDigitsCore :
    ∀ (fuel n : Nat), n ≤ fuel → digitsVal (natDigitsCore fuel n) = n
  | 0, 0, _ => rfl
  | 0, _ + 1, h => absurd h (by omega)
  | _ + 1, 0, _ => rfl
  | fuel + 1, n + 1, h => by
    rw [natDigitsCore, digitsVal_append_digit]
    have hlt : (n + 1) / 10 < n + 1 := Nat.div_lt_self (Nat.succ_pos n) (by norm_num)
    rw [digitsVal_natDigitsCore fuel ((n + 1) / 10) (by omega)]
    rw [(digit_char_props _ (Nat.mod_lt _ (by norm_num : (0:Nat) < 10))).2]
    omega

/-- Every character of `natDigits n` is a digit. -/
theorem natDigits_digits (n : Nat) : ∀ c ∈ natDigits n, c.isDigit = true := by
  intro c hc
  rw [natDigits] at hc
  by_cases h : n = 0
  · rw [if_pos h] at hc
    rw [List.mem_singleton.mp hc]
    decide
  · rw [if_neg h] at hc
    exact natDigitsCore_digits n n c hc

/-- Round trip: the value of the rendered digits of `n` is `n`. -/
theorem digitsVal_natDigits (n : Nat) : digitsVal (natDigits n) = n := by
  rw [natDigits]
  by_cases h : n = 0
  · rw [if_pos h, h]
    rfl
  · rw [if_neg h]
    exact digitsVal_natDigitsCore n n le_rfl

/-- The rendering of `n` is never the empty string. -/
theorem natDigits_ne_nil (n : Nat) : natDigits n ≠ [] := by
  rw [natDigits]
  by_cases h : n = 0
  · rw [if_pos h]
    exact List.cons_ne_nil _ _
  · rw [if_neg h]
    rcases n with _ | m
    · exact absurd rfl h
    · rw [natDigitsCore]
      exact fun hcontra => by simpa using congrArg List.length hcontra

/-! ### Claim C7: scanner lemmas -/

/-- `takeWhile` passes over a fully-satisfying prefix. -/
theorem takeWhile_append_all {p : Char → Bool} :
    ∀ (l r : List Char), (∀ c ∈ l, p c = true) →
      (l ++ r).takeWhile p = l ++ r.takeWhile p
  | [], _, _ => rfl
  | c :: l, r, h => by
    have hc : p c = true := h c (List.mem_cons_self _ _)
    simp only [List.cons_append, List.takeWhile_cons, hc, if_true]
    rw [takeWhile_append_all l r (fun x hx => h x (List.mem_cons_of_mem _ hx))]

/-- `dropWhile` consumes a fully-satisfying prefix. -/
theorem dropWhile_append_all {p : Char → Bool} :
    ∀ (l r : List Char), (∀ c ∈ l, p c = true) →
      (l ++ r).dropWhile p = r.dropWhile p
  | [], _, _ => rfl
  | c :: l, r, h => by
    have hc : p c = true := h c (List.mem_cons_self _ _)
    simp only [List.cons_append, List.dropWhile_cons, hc, if_true]
    exact dropWhile_append_all l r (fun x hx => h x (List.mem_cons_of_mem _ hx))

/-- An amount group made of digits, followed by a character that neither
extends the token nor starts a decimal tail, is captured verbatim. -/
theorem matchAmount_digits_append (nd post : List Char)
    (hnd : ∀ c ∈ nd, c.isDigit = true) (hne : nd ≠ [])
    (hpost : ∀ c, post.head? = some c → isDigitComma c = false ∧ c ≠ '.') :
    matchAmount (nd ++ post) = some (nd, post) := by
  have hdc : ∀ c ∈ nd, isDigitComma c = true := by
    intro c hc
    rw [isDigitComma, hnd c hc, Bool.true_or]
  have htake : (nd ++ post).takeWhile isDigitComma = nd := by
    rw [takeWhile_append_all nd post hdc]
    cases hp : post with
    | nil => simp
    | cons c cs =>
      have hstop := (hpost c (by rw [hp]; rfl)).1
      simp [List.takeWhile_cons, hstop]
  have hdrop : (nd ++ post).dropWhile isDigitComma = post := by
    rw [dropWhile_append_all nd post hdc]
    cases hp : post with
    | nil => rfl
    | cons c cs =>
      have hstop := (hpost c (by rw [hp]; rfl)).1
      simp [List.dropWhile_cons, hstop]
  have hempty : nd.isEmpty = false := by
    cases nd with
    | nil => exact absurd rfl hne
    | cons _ _ => rfl
  have hsplit : decimalSplit nd post = (nd, post) := by
    cases hp : post with
    | nil => rfl
    | cons c cs =>
      have hdot := (hpost c (by rw [hp]; rfl)).2
      rcases cs with _ | ⟨d1, _ | ⟨d2, rest2⟩⟩
      · rfl
      · rfl
      · rw [decimalSplit, if_neg (fun h => hdot h.1)]
  rw [matchAmount, htake, hdrop, hempty]
  simp only [Bool.false_eq_true, if_false, hsplit]

/-- The range pattern succeeds at a constructed
`Â£ LOW - Â£ HIGH` position and captures the two digit groups. -/
theorem matchRangeAt_range (nda ndb post : List Char)
    (ha : ∀ c ∈ nda, c.isDigit = true) (hane : nda ≠ [])
    (hb : ∀ c ∈ ndb, c.isDigit = true) (hbne : ndb ≠ [])
    (hpost : ∀ c, post.head? = some c → isDigitComma c = false ∧ c ≠ '.') :
    matchRangeAt ('Â' :: '£' ::
        (nda ++ ' ' :: '-' :: ' ' :: 'Â' :: '£' :: (ndb ++ post))) =
      some (nda, ndb) := by
  have hmid : ∀ c, (' ' :: '-' :: ' ' :: 'Â' :: '£' :: (ndb ++ post)).head? = some c →
      isDigitComma c = false ∧ c ≠ '.' := by
    intro c hc
    injection hc with hc
    subst hc
    exact ⟨rfl, by decide⟩
  have h1 : matchAmount (nda ++ ' ' :: '-' :: ' ' :: 'Â' :: '£' :: (ndb ++ post)) =
      some (nda, ' ' :: '-' :: ' ' :: 'Â' :: '£' :: (ndb ++ post)) :=
    matchAmount_digits_append nda _ ha hane hmid
  have h2 : matchAmount (ndb ++ post) = some (ndb, post) :=
    matchAmount_digits_append ndb post hb hbne hpost
  have hdrop1 : dropSpaces (' ' :: '-' :: ' ' :: 'Â' :: '£' :: (ndb ++ post)) =
      '-' :: ' ' :: 'Â' :: '£' :: (ndb ++ post) := rfl
  have hdrop2 : dropSpaces (' ' :: 'Â' :: '£' :: (ndb ++ post)) =
      'Â' :: '£' :: (ndb ++ post) := rfl
  have hcur : ∀ X : List Char, matchCurrency ('Â' :: '£' :: X) = some X := by
    intro X
    rfl
  simp only [matchRangeAt, hcur, h1, hdrop1, hdrop2, h2]

/-- A position whose head is not `'Â'` cannot start a range match. -/
theorem matchRangeAt_head_ne {c : Char} (hc : c ≠ 'Â') (t : List Char) :
    matchRangeAt (c :: t) = none := by
  have hcur : matchCurrency (c :: t) = none := by
    cases t with
    | nil => rfl
    | cons c2 r =>
      rw [matchCurrency, if_neg (fun h => hc h.1)]
  rw [matchRangeAt, hcur]

/-- `re.search` skips any prefix free of the currency marker. -/
theorem findRange_append (pre suffix : List Char) (hpre : ∀ c ∈ pre, c ≠ 'Â') :
    findRange (pre ++ suffix) = findRange suffix := by
  induction pre with
  | nil => rfl
  | cons c rest ih =>
    have hm : matchRangeAt (c :: (rest ++ suffix)) = none :=
      matchRangeAt_head_ne (hpre c (List.mem_cons_self _ _)) _
    rw [List.cons_append]
    rw [show findRange (c :: (rest ++ suffix)) =
      orTry (matchRangeAt (c :: (rest ++ suffix)))
        (fun _ => findRange (rest ++ suffix)) from rfl]
    rw [hm]
    rw [show orTry (none : Option (List Char × List Char))
      (fun _ => findRange (rest ++ suffix)) = findRange (rest ++ suffix) from rfl]
    exact ih (fun x hx => hpre x (List.mem_cons_of_mem _ hx))

/-- `int(group.replace(',', ''))` on a pure digit group. -/
theorem pyIntGroup_digits (nd : List Char)
    (h : ∀ c ∈ nd, c.isDigit = true) (hne : nd ≠ []) :
    pyIntGroup nd = .ok (digitsVal nd) := by
  have hfilter : nd.filter (fun c => c ≠ ',') = nd := by
    apply List.filter_eq_self.mpr
    intro c hc
    have hd := h c hc
    simp only [ne_eq, decide_eq_true_eq]
    intro hcomma
    rw [hcomma] at hd
    exact absurd hd (by decide)
  have hempty : nd.isEmpty = false := by
    cases nd with
    | nil => exact absurd rfl hne
    | cons _ _ => rfl
  have hall : nd.all Char.isDigit = true := List.all_eq_true.mpr h
  rw [pyIntGroup, hfilter, hempty, hall]
  rfl

/-! ### Claim C7: output-format lemmas -/

/-- Thousands grouping only inserts commas; the digits survive a digit
filter unchanged. -/
theorem filter_isDigit_group3Rev :
    ∀ (l : List Char) (k : Nat), (∀ c ∈ l, c.isDigit = true) →
      (group3Rev l k).filter Char.isDigit = l
  | [], _, _ => rfl
  | c :: cs, k, h => by
    have hc : c.isDigit = true := h c (List.mem_cons_self _ _)
    have hrest := fun k' => filter_isDigit_group3Rev cs k'
      (fun x hx => h x (List.mem_cons_of_mem _ hx))
    rw [group3Rev]
    by_cases hk : k = 3
    · rw [if_pos hk]
      rw [List.filter_cons_of_neg (by decide), List.filter_cons_of_pos hc, hrest 1]
    · rw [if_neg hk]
      rw [List.filter_cons_of_pos hc, hrest (k + 1)]

/-- Filtering commutes with reversal. -/
theorem filter_reverse_comm (p : Char → Bool) :
    ∀ l : List Char, (l.reverse).filter p = (l.filter p).reverse
  | [] => rfl
  | c :: l => by
    by_cases hc : p c = true <;>
      simp [List.filter_append, filter_reverse_comm p l, List.filter_cons, hc]

/-- The digits of the formatted price are exactly the digits of its value:
stripping non-digits from `f'Â£{n:,}'` recovers `n`. -/
theorem digitsVal_filter_formatPounds (n : Nat) :
    digitsVal ((formatPounds n).filter Char.isDigit) = n := by
  have hrev : ∀ c ∈ (natDigits n).reverse, c.isDigit = true := by
    intro c hc
    exact natDigits_digits n c (List.mem_reverse.mp hc)
  rw [formatPounds, List.filter_cons_of_neg (by decide),
    List.filter_cons_of_neg (by decide), group3]
  rw [filter_reverse_comm, filter_isDigit_group3Rev _ 0 hrev, List.reverse_reverse]
  exact digitsVal_natDigits n

/-! ### Claim C7: main theorem -/

/-- Claim C7: for a listing text containing a currency-prefixed price range
with lower bound `a` and upper bound `b` (any preceding text free of the
currency marker, any following text that does not extend the second
amount), the extracted normalized price is the formatted arithmetic
midpoint `(a + b) / 2` rounded down to the whole currency unit — and
re-normalizing the formatted price recovers exactly that midpoint. -/
theorem price_range_midpoint (pre post : List Char) (a b : Nat)
    (hpre : ∀ c ∈ pre, c ≠ 'Â')
    (hpost : ∀ c, post.head? = some c → isDigitComma c = false ∧ c ≠ '.') :
    extract_price (pre ++ 'Â' :: '£' ::
        (natDigits a ++ ' ' :: '-' :: ' ' :: 'Â' :: '£' :: (natDigits b ++ post))) =
      .ok (formatPounds ((a + b) / 2)) ∧
    digitsVal ((formatPounds ((a + b) / 2)).filter Char.isDigit) = (a + b) / 2 := by
  constructor
  · have hmra := matchRangeAt_range (natDigits a) (natDigits b) post
      (natDigits_digits a) (natDigits_ne_nil a)
      (natDigits_digits b) (natDigits_ne_nil b) hpost
    have hfr : findRange (pre ++ 'Â' :: '£' ::
        (natDigits a ++ ' ' :: '-' :: ' ' :: 'Â' :: '£' :: (natDigits b ++ post))) =
        some (natDigits a, natDigits b) := by
      rw [findRange_append pre _ hpre]
      simp only [findRange, hmra, orTry]
    simp only [extract_price, hfr,
      pyIntGroup_digits _ (natDigits_digits a) (natDigits_ne_nil a),
      pyIntGroup_digits _ (natDigits_digits b) (natDigits_ne_nil b),
      digitsVal_natDigits]
  · exact digitsVal_filter_formatPounds ((a + b) / 2)

/-- Witness for C7: the range `Â£2000 - Â£3000` yields the formatted
midpoint `Â£2,500`, whose normalized value is 2500. -/
theorem price_range_midpoint_witness :
    extract_price ([] ++ 'Â' :: '£' ::
        (natDigits 2000 ++ ' ' :: '-' :: ' ' :: 'Â' :: '£' ::
          (natDigits 3000 ++ []))) = .ok (formatPounds 2500) ∧
    digitsVal ((formatPounds 2500).filter Char.isDigit) = 2500 := by
  have h := price_range_midpoint [] [] 2000 3000
    (by intro c hc; simp at hc)
    (by intro c hc; simp at hc)
  norm_num at h
  exact h

end CarScraper
